import Mathlib

/-!
Verification of the distributed cron scheduler of `grr`
(`grr/server/grr_response_server/aff4_objects/cronjobs.py`).

The Python code is shallowly embedded: timestamps and durations are `Nat`
(a single clock scale; the source mixes `RDFDatetime` deltas and epoch
seconds, which its own design notes treat as equivalent), the execution
engine is a map from flow handles to observed flow states, and the
side effects of one evaluation (terminate requests, counter increments,
latency events, started flows) are collected in an explicit effect record.
-/

namespace GrrCron

/-- State of a flow as reported by the execution engine
(`runner.IsRunning()` / `runner.context.state` in the source):
`Running` is an in-flight run, `Error` is the terminal `ERROR` context
state, `Terminated` is any other terminal state. -/
inductive FlowState where
  | Running
  | Terminated
  | Error
  deriving DecidableEq, Repr

/-- `rdf_cronjobs.CronJobRunStatus.Status`. -/
inductive CronRunStatus where
  | OK
  | ERROR
  | TIMEOUT
  deriving DecidableEq, Repr

/-- The stored `CRON_ARGS` attribute (`rdf_cronjobs.CreateCronJobFlowArgs`).
Durations and timestamps are `Nat`; `none` models an unset optional field.
The flow payload (`flow_runner_args` / `flow_args`) is carried as two opaque
strings. -/
structure CronFlowArgs where
  description : String
  periodicity : Nat
  payloadFlowName : String
  payloadFlowArgs : String
  allow_overruns : Bool
  lifetime : Option Nat
  start_time : Option Nat
  deriving DecidableEq, Repr

/-- One cron job record: the `CronJob` AFF4 object's attributes.
`last_run_status` holds the latest recorded value of the (versioned)
`LAST_RUN_STATUS` attribute. -/
structure CronJob where
  cron_args : CronFlowArgs
  disabled : Bool
  current_flow_urn : Option Nat
  last_run_time : Option Nat
  last_run_status : Option CronRunStatus
  deriving DecidableEq, Repr

/-- The execution engine as the scheduler observes it during one
evaluation: the state it reports for each flow handle, and the handle
`StartAFF4Flow` returns for a newly started flow. -/
structure Engine where
  flowState : Nat → FlowState
  newFlow : Nat

/-- Observable side effects of one evaluation: terminate requests issued,
`cron_job_timeout` / `cron_job_failure` counter increments,
`cron_job_latency` events recorded, and flows started. -/
structure RunEffects where
  terminated : List Nat
  timeouts : Nat
  failures : Nat
  latencies : List Nat
  started : List Nat
  deriving DecidableEq, Repr

def noEffects : RunEffects := ⟨[], 0, 0, [], []⟩

def RunEffects.append (a b : RunEffects) : RunEffects :=
  ⟨a.terminated ++ b.terminated, a.timeouts + b.timeouts,
   a.failures + b.failures, a.latencies ++ b.latencies,
   a.started ++ b.started⟩

/-- `CronJob.IsRunning`: a run is tracked and the engine reports it as
still running.  (The source's `InstantiationError` branch, for a handle
that is not a flow at all, is outside this model: every handle here has
an engine state.) -/
def IsRunning (eng : Engine) (job : CronJob) : Bool :=
  match job.current_flow_urn with
  | none => false
  | some h => eng.flowState h = FlowState.Running

/-- `Duration.Expiry(base)`: the base time plus the duration. -/
def Expiry (periodicity base : Nat) : Nat := base + periodicity

/-- `CronJob.DueToRun`, line for line from the source: disabled jobs are
never due; otherwise, if the job never ran or `now` is past the expiry of
the last run, it is due unless `now` is before `start_time`, with overruns
allowed or no currently tracked flow. -/
def DueToRun (now : Nat) (job : CronJob) : Bool :=
  if job.disabled then false
  else
    let args := job.cron_args
    let timeToRun :=
      match job.last_run_time with
      | none => true
      | some t => decide (now > Expiry args.periodicity t)
    if timeToRun then
      if now < args.start_time.getD 0 then false
      else if args.allow_overruns then true
      else if job.current_flow_urn.isNone then true
      else false
    else false

/-- `CronJob.StopCurrentRun`: if a flow is tracked, ask the engine to
terminate it, record `LAST_RUN_STATUS = TIMEOUT` and delete
`CURRENT_FLOW_URN`.  Returns the updated record and the terminate
requests issued. -/
def StopCurrentRun (job : CronJob) : CronJob × List Nat :=
  match job.current_flow_urn with
  | none => (job, [])
  | some h =>
      ({ job with
          last_run_status := some CronRunStatus.TIMEOUT
          current_flow_urn := none }, [h])

/-- `CronJob.KillOldFlows`: if the job is running and a nonzero `lifetime`
is set and exceeded by `now - last_run_time`, stop the current run,
increment the `cron_job_timeout` counter and record the elapsed latency.
Returns the record, the effects, and whether the flow was killed. -/
def KillOldFlows (eng : Engine) (now : Nat) (job : CronJob) :
    CronJob × RunEffects × Bool :=
  if IsRunning eng job then
    let start_time := job.last_run_time.getD 0
    let elapsed := now - start_time
    match job.cron_args.lifetime with
    | some l =>
        if 0 < l ∧ l < elapsed then
          let s := StopCurrentRun job
          (s.1,
           ({ noEffects with
                terminated := s.2, timeouts := 1, latencies := [elapsed] },
            true))
        else (job, noEffects, false)
    | none => (job, noEffects, false)
  else (job, noEffects, false)

/-- The inline finished-run reap of `CronJob.Run` (the block guarded by
`if current_flow_urn:` / `if not runner.IsRunning():`): on a terminal
engine state record `ERROR` (incrementing `cron_job_failure`) or `OK`
(recording the run latency `now - last_run_time`), and delete
`CURRENT_FLOW_URN`. -/
def ReapFinished (eng : Engine) (now : Nat) (job : CronJob) :
    CronJob × RunEffects :=
  match job.current_flow_urn with
  | none => (job, noEffects)
  | some h =>
      if eng.flowState h = FlowState.Running then (job, noEffects)
      else if eng.flowState h = FlowState.Error then
        ({ job with
            last_run_status := some CronRunStatus.ERROR
            current_flow_urn := none },
         { noEffects with failures := 1 })
      else
        let start_time := job.last_run_time.getD 0
        ({ job with
            last_run_status := some CronRunStatus.OK
            current_flow_urn := none },
         { noEffects with latencies := [now - start_time] })

/-- The body of `CronJob.Run` after its lock check: kill an overrun flow,
reap a finished flow, then — unless neither `force` nor `DueToRun()`
holds — start the payload flow, track its handle and set
`LAST_RUN_TIME = now`. -/
def RunBody (eng : Engine) (now : Nat) (force : Bool) (job : CronJob) :
    CronJob × RunEffects :=
  let k := KillOldFlows eng now job
  let r := ReapFinished eng now k.1
  let job2 := r.1
  let eff := RunEffects.append k.2.1 r.2
  if ¬force ∧ ¬DueToRun now job2 then (job2, eff)
  else
    let h := eng.newFlow
    ({ job2 with current_flow_urn := some h, last_run_time := some now },
     { eff with started := eff.started ++ [h] })

/-- The error raised by `CronJob.Run` when the record's lease is not held
(`aff4.LockError`, the spec's `LockNotHeldError`). -/
inductive CronError where
  | lockNotHeld
  deriving DecidableEq, Repr

/-- `CronJob.Run`: raises `LockError` when the job object is not locked,
before any reap or start logic; otherwise runs the evaluation body. -/
def Run (eng : Engine) (now : Nat) (locked force : Bool) (job : CronJob) :
    Except CronError (CronJob × RunEffects) :=
  if ¬locked then Except.error CronError.lockNotHeld
  else Except.ok (RunBody eng now force job)

/-! ### CronManager

The job store under `aff4:/cron` is an association list from job id to
record.  Lease acquisition by `OpenWithLock(blocking=False, lease_time=600)`
is abstracted as a predicate `canLock` saying whether this caller's
non-blocking acquisition succeeds for a given job id, and the per-job
evaluation (the `cron_job.Run(force=force)` call, whose failures come from
the environment) as a function returning either the updated record or an
evaluation error carrying the record as committed when the exception was
raised. -/

def lookupJob : List (String × CronJob) → String → Option CronJob
  | [], _ => none
  | p :: rest, k => if p.1 = k then some p.2 else lookupJob rest k

def updateJob (store : List (String × CronJob)) (k : String) (v : CronJob) :
    List (String × CronJob) :=
  store.map fun p => if p.1 = k then (k, v) else p

/-- `CronManager.ListJobs`: the ids of all stored jobs. -/
def ListJobs (store : List (String × CronJob)) : List String :=
  store.map Prod.fst

/-- The `lease_time` argument `CronManager.RunOnce` passes to
`aff4.FACTORY.OpenWithLock`, in seconds. -/
def cronRunOnceLeaseTime : Nat := 600

/-- One iteration of `CronManager.RunOnce`'s loop for one job id: on a
failed lease acquisition (`aff4.LockError`) the job is skipped; otherwise
the job is evaluated, and an evaluation exception is caught, incrementing
the `cron_internal_error` counter.  The accumulator is the store plus that
counter. -/
def RunOnceStep (evalJob : String → CronJob → Except CronJob CronJob)
    (canLock : String → Bool)
    (acc : List (String × CronJob) × Nat) (name : String) :
    List (String × CronJob) × Nat :=
  if canLock name then
    match lookupJob acc.1 name with
    | some job =>
        match evalJob name job with
        | Except.ok j => (updateJob acc.1 name j, acc.2)
        | Except.error j => (updateJob acc.1 name j, acc.2 + 1)
    | none => acc
  else acc

/-- The loop of `CronManager.RunOnce` over an already-resolved list of job
names. -/
def RunOncePass (evalJob : String → CronJob → Except CronJob CronJob)
    (canLock : String → Bool)
    (store : List (String × CronJob)) (names : List String) :
    List (String × CronJob) × Nat :=
  names.foldl (RunOnceStep evalJob canLock) (store, 0)

/-- `CronManager.RunOnce`: `names = names or self.ListJobs()` (a missing
or empty argument falls back to all listed jobs), then the per-job loop. -/
def RunOnce (evalJob : String → CronJob → Except CronJob CronJob)
    (canLock : String → Bool)
    (store : List (String × CronJob)) (names : Option (List String)) :
    List (String × CronJob) × Nat :=
  let ns :=
    match names with
    | none => ListJobs store
    | some l => if l.isEmpty then ListJobs store else l
  RunOncePass evalJob canLock store ns

/-! ### CronManager.CreateJob -/

/-- The `cron_args` input of `CronManager.CreateJob`
(`rdf_cronjobs.CreateCronJobArgs`). -/
structure CreateCronJobArgs where
  flow_name : String
  flow_args : String
  frequency : Nat
  lifetime : Option Nat
  allow_overruns : Bool
  description : String
  deriving DecidableEq, Repr

/-- The `CreateCronJobFlowArgs` record built by `CronManager.CreateJob`
from its input.  Modelled from the spec: the `start_time` default — the
spec's "start_time (optional, defaults to now)" — since the rdfvalue class
`CreateCronJobFlowArgs` that defines the default is outside `src/`; the
constructor therefore takes the creation time `now`.  All other fields
follow the source's assignments (the payload strings stand for the
`flow_runner_args` / `flow_args` plumbing through
`CreateAndRunGenericHuntFlow`). -/
def mkCreateCronJobFlowArgs (a : CreateCronJobArgs) (now : Nat) :
    CronFlowArgs :=
  { description := a.description
    periodicity := a.frequency
    payloadFlowName := a.flow_name
    payloadFlowArgs := a.flow_args
    allow_overruns := a.allow_overruns
    lifetime := a.lifetime
    start_time := some now }

/-- `CronManager.CreateJob`: generates `"<flow_name>_<uid>"` when no job
id is given; if the record already exists and its stored `start_time` is
truthy (a nonzero timestamp), that `start_time` is kept in the new args;
the args are stored only when they differ; `DISABLED` is set from
`enabled` either way.  Returns the job id and the updated store. -/
def CreateJob (store : List (String × CronJob)) (cron_args : CreateCronJobArgs)
    (job_id : Option String) (enabled : Bool) (now uid : Nat) :
    String × List (String × CronJob) :=
  let jid :=
    match job_id with
    | none => cron_args.flow_name ++ "_" ++ toString uid
    | some s => if s = "" then cron_args.flow_name ++ "_" ++ toString uid else s
  let create_cron_args := mkCreateCronJobFlowArgs cron_args now
  match lookupJob store jid with
  | some rec =>
      let create_cron_args :=
        match rec.cron_args.start_time with
        | some t =>
            if 0 < t then { create_cron_args with start_time := some t }
            else create_cron_args
        | none => create_cron_args
      let rec' :=
        if create_cron_args ≠ rec.cron_args then
          { rec with cron_args := create_cron_args }
        else rec
      (jid, updateJob store jid { rec' with disabled := !enabled })
  | none =>
      (jid, store ++ [(jid,
        { cron_args := create_cron_args
          disabled := !enabled
          current_flow_urn := none
          last_run_time := none
          last_run_status := none })])

/-! ### CronManager.DeleteOldRuns -/

/-- One run-history entry under a job: the flow's creation timestamp and
its urn. -/
structure CronRun where
  timestamp : Nat
  urn : Nat
  deriving DecidableEq, Repr

/-- Modelled from the spec: `job.ListChildren(age=cutoff_timestamp)` —
the record store's age-filtered child listing is outside `src/`; per the
spec, the entries selected for deletion are exactly the run-history
entries with timestamp strictly before the cutoff. -/
def ListChildrenOlderThan (runs : List CronRun) (cutoff : Nat) :
    List CronRun :=
  runs.filter fun r => r.timestamp < cutoff

inductive DeleteOldRunsError where
  | cutoffMissing
  deriving DecidableEq, Repr

/-- Outcome of `CronManager.DeleteOldRuns`: the run-history entries left
in the store, the entries handed to
`queue_manager.MultiDestroyFlowStates` (the execution engine's
bookkeeping discard), and the returned count. -/
structure DeleteOldRunsResult where
  remaining : List CronRun
  destroyedFlowStates : List CronRun
  count : Nat
  deriving DecidableEq, Repr

/-- `CronManager.DeleteOldRuns`: raises `ValueError` when
`cutoff_timestamp` is `None`; otherwise destroys the flow states of the
runs older than the cutoff, deletes them, and returns their number. -/
def DeleteOldRuns (runs : List CronRun) (cutoff : Option Nat) :
    Except DeleteOldRunsError DeleteOldRunsResult :=
  match cutoff with
  | none => Except.error DeleteOldRunsError.cutoffMissing
  | some c =>
      let child_flows := ListChildrenOlderThan runs c
      Except.ok
        { remaining := runs.filter fun r => ¬r.timestamp < c
          destroyedFlowStates := child_flows
          count := child_flows.length }

/-! ### Theorems -/

/-- The `DueToRun` decision as the specification words it, with the third
bullet amended: false if `disabled`; false if `now < start_time`; if the
job never ran, due iff overruns are allowed or no run is tracked;
otherwise due iff `now` is past the expiry of the last run and (overruns
are allowed or no run is tracked). -/
def DueToRunSpec (now : Nat) (job : CronJob) : Bool :=
  if job.disabled then false
  else if now < job.cron_args.start_time.getD 0 then false
  else
    match job.last_run_time with
    | none => job.cron_args.allow_overruns || job.current_flow_urn.isNone
    | some t =>
        decide (now > Expiry job.cron_args.periodicity t) &&
        (job.cron_args.allow_overruns || job.current_flow_urn.isNone)

/-- A job that, per C2's reading, should be due: never run, not disabled,
`start_time` passed — but with a tracked run and overruns disallowed. -/
def jobC2 : CronJob :=
  { cron_args :=
      { description := ""
        periodicity := 7
        payloadFlowName := "f"
        payloadFlowArgs := ""
        allow_overruns := false
        lifetime := none
        start_time := some 0 }
    disabled := false
    current_flow_urn := some 1
    last_run_time := none
    last_run_status := none }

/-- C2 (counterexample): the claim's third clause — `DueToRun()` "returns
true when `last_run_time` is unset and `start_time` has passed" — fails on
a job with a tracked `current_flow_urn` and `allow_overruns = false`: the
code still requires overruns allowed or no tracked run in that case. -/
theorem c2_counterexample :
    jobC2.disabled = false ∧ jobC2.last_run_time = none ∧
    jobC2.cron_args.start_time.getD 0 ≤ 5 ∧ DueToRun 5 jobC2 = false := by
  decide

/-- C2 (amended): `DueToRun` decides exactly the spec's bullets with the
third one amended to also require overruns allowed or no tracked run:
false when `disabled`; false when `now < start_time`; when `last_run_time`
is unset, true iff `allow_overruns` or `current_flow_urn` is unset;
otherwise true iff `now > Expiry(last_run_time, periodicity)` and
(`allow_overruns` or `current_flow_urn` is unset). -/
theorem c2_due_to_run_decision (now : Nat) (job : CronJob) :
    DueToRun now job = DueToRunSpec now job := by
  unfold DueToRun DueToRunSpec
  cases hd : job.disabled
  · cases hl : job.last_run_time <;>
      simp only [] <;>
      by_cases hs : now < job.cron_args.start_time.getD 0 <;>
      cases ho : job.cron_args.allow_overruns <;>
      cases hc : job.current_flow_urn <;>
      simp [hs, ho, hc]
  · rfl

/-- C6: calling `Run` on a job whose lease is not held fails with the
lock-not-held error, whatever the job record, engine, time or `force`
flag: the check precedes all reap and start logic and the record is
untouched. -/
theorem c6_run_unlocked_raises (eng : Engine) (now : Nat) (force : Bool)
    (job : CronJob) :
    Run eng now false force job = Except.error CronError.lockNotHeld := rfl

/-- `KillOldFlows` either leaves the record and effects untouched, or —
when a tracked flow runs past its lifetime — stops it: records `TIMEOUT`,
clears the handle, requests one termination and counts one timeout. -/
theorem killOldFlows_spec (eng : Engine) (now : Nat) (job : CronJob) :
    KillOldFlows eng now job = (job, noEffects, false) ∨
    ∃ h, job.current_flow_urn = some h ∧
      KillOldFlows eng now job =
        ({ job with
            last_run_status := some CronRunStatus.TIMEOUT
            current_flow_urn := none },
         { noEffects with
            terminated := [h]
            timeouts := 1
            latencies := [now - job.last_run_time.getD 0] },
         true) := by
  unfold KillOldFlows
  cases hr : IsRunning eng job with
  | false => left; simp
  | true =>
      cases hl : job.cron_args.lifetime with
      | none => left; simp
      | some l =>
          by_cases hc : 0 < l ∧ l < now - job.last_run_time.getD 0
          · right
            have hcf : ∃ h, job.current_flow_urn = some h := by
              unfold IsRunning at hr
              cases hcf : job.current_flow_urn
              · rw [hcf] at hr; cases hr
              · exact ⟨_, rfl⟩
            obtain ⟨h, hcf⟩ := hcf
            exact ⟨h, hcf, by simp [hc, StopCurrentRun, hcf]⟩
          · left; simp [hc]

/-- The finished-run reap either leaves the record and effects untouched,
or clears the handle recording `ERROR` (one failure counted) or `OK` (one
latency event). -/
theorem reapFinished_spec (eng : Engine) (now : Nat) (job : CronJob) :
    ReapFinished eng now job = (job, noEffects) ∨
    ReapFinished eng now job =
      ({ job with
          last_run_status := some CronRunStatus.ERROR
          current_flow_urn := none },
       { noEffects with failures := 1 }) ∨
    ReapFinished eng now job =
      ({ job with
          last_run_status := some CronRunStatus.OK
          current_flow_urn := none },
       { noEffects with latencies := [now - job.last_run_time.getD 0] }) := by
  unfold ReapFinished
  cases hc : job.current_flow_urn with
  | none => left; rfl
  | some h =>
      by_cases h1 : eng.flowState h = FlowState.Running
      · left; simp [h1]
      · by_cases h2 : eng.flowState h = FlowState.Error
        · right; left; simp [h1, h2]
        · right; right; simp [h1, h2]

/-- Neither reap changes the `disabled` flag or starts a flow. -/
theorem killOldFlows_parts (eng : Engine) (now : Nat) (job : CronJob) :
    (KillOldFlows eng now job).1.disabled = job.disabled ∧
    (KillOldFlows eng now job).2.1.started = [] := by
  rcases killOldFlows_spec eng now job with hk | ⟨h, _, hk⟩ <;>
    rw [hk] <;> simp [noEffects]

theorem reapFinished_parts (eng : Engine) (now : Nat) (job : CronJob) :
    (ReapFinished eng now job).1.disabled = job.disabled ∧
    (ReapFinished eng now job).2.started = [] := by
  rcases reapFinished_spec eng now job with hr | hr | hr <;>
    rw [hr] <;> simp [noEffects]

/-- A job with a finite, exceeded lifetime and a tracked run that the
engine reports as already terminal (`Error`), not running. -/
def jobC1 : CronJob :=
  { cron_args :=
      { description := ""
        periodicity := 100
        payloadFlowName := "f"
        payloadFlowArgs := ""
        allow_overruns := false
        lifetime := some 10
        start_time := some 0 }
    disabled := false
    current_flow_urn := some 1
    last_run_time := some 0
    last_run_status := none }

def engC1 : Engine := ⟨fun _ => FlowState.Error, 2⟩

/-- C1 (counterexample): a job with finite `lifetime = 10`, a tracked
handle and `now - last_run_time = 50 > 10`, whose flow the engine reports
as terminal (`ERROR`): the evaluation issues no terminate request and
records `ERROR`, not `Timeout` — `KillOldFlows` reaps only flows the
engine still reports as running. -/
theorem c1_counterexample :
    jobC1.cron_args.lifetime = some 10 ∧ jobC1.current_flow_urn = some 1 ∧
    10 < 50 - jobC1.last_run_time.getD 0 ∧
    (RunBody engC1 50 false jobC1).2.terminated = [] ∧
    (RunBody engC1 50 false jobC1).1.last_run_status =
      some CronRunStatus.ERROR := by
  decide

/-- C1 (amended): for a job with a tracked run that the engine still
reports as running, a nonzero finite lifetime exceeded by
`now - last_run_time`: the evaluation — whatever `force` is, and whether
or not the job is otherwise due — issues a terminate request for the
handle, increments the timeout counter, records
`last_run_status = Timeout`, and clears `current_run_handle` (any handle
tracked afterwards is one newly started by this same evaluation). -/
theorem c1_timeout_reap (eng : Engine) (now : Nat) (force : Bool)
    (job : CronJob) (h l : Nat)
    (hh : job.current_flow_urn = some h)
    (hrun : eng.flowState h = FlowState.Running)
    (hl : job.cron_args.lifetime = some l)
    (hl0 : 0 < l)
    (hexp : l < now - job.last_run_time.getD 0) :
    (RunBody eng now force job).2.terminated = [h] ∧
    (RunBody eng now force job).2.timeouts = 1 ∧
    (RunBody eng now force job).1.last_run_status =
      some CronRunStatus.TIMEOUT ∧
    ((RunBody eng now force job).1.current_flow_urn = none ∨
      (RunBody eng now force job).1.current_flow_urn = some eng.newFlow) := by
  have hr : IsRunning eng job = true := by simp [IsRunning, hh, hrun]
  have hk : KillOldFlows eng now job =
      ({ job with
          last_run_status := some CronRunStatus.TIMEOUT
          current_flow_urn := none },
       { noEffects with
          terminated := [h]
          timeouts := 1
          latencies := [now - job.last_run_time.getD 0] },
       true) := by
    unfold KillOldFlows
    simp [hr, hl, hl0, hexp, StopCurrentRun, hh]
  unfold RunBody
  rw [hk]
  simp only [ReapFinished, RunEffects.append, noEffects]
  split <;> simp

def jobC1w : CronJob :=
  { cron_args :=
      { description := ""
        periodicity := 5
        payloadFlowName := "f"
        payloadFlowArgs := ""
        allow_overruns := false
        lifetime := some 10
        start_time := some 0 }
    disabled := false
    current_flow_urn := some 1
    last_run_time := some 0
    last_run_status := none }

def engC1w : Engine := ⟨fun _ => FlowState.Running, 2⟩

/-- C1 (witness): the amended theorem at a concrete stuck job. -/
theorem c1_witness :
    (RunBody engC1w 50 false jobC1w).2.terminated = [1] ∧
    (RunBody engC1w 50 false jobC1w).2.timeouts = 1 ∧
    (RunBody engC1w 50 false jobC1w).1.last_run_status =
      some CronRunStatus.TIMEOUT ∧
    ((RunBody engC1w 50 false jobC1w).1.current_flow_urn = none ∨
      (RunBody engC1w 50 false jobC1w).1.current_flow_urn =
        some engC1w.newFlow) :=
  c1_timeout_reap engC1w 50 false jobC1w 1 10 rfl rfl rfl (by decide)
    (by decide)

def jobC3 : CronJob :=
  { cron_args :=
      { description := ""
        periodicity := 5
        payloadFlowName := "f"
        payloadFlowArgs := ""
        allow_overruns := false
        lifetime := none
        start_time := some 0 }
    disabled := false
    current_flow_urn := some 1
    last_run_time := some 0
    last_run_status := none }

def engC3 : Engine := ⟨fun _ => FlowState.Running, 2⟩

/-- C3 (counterexample): with `allow_overruns = false`, a handle tracked
and still running, and no lifetime excess, `Run` with `force = true`
nevertheless starts a second flow and overwrites the tracked handle: the
claim's "with or without force" fails, because `force` bypasses
`DueToRun()` entirely. -/
theorem c3_counterexample :
    jobC3.cron_args.allow_overruns = false ∧
    jobC3.current_flow_urn = some 1 ∧
    engC3.flowState 1 = FlowState.Running ∧
    (RunBody engC3 7 true jobC3).2.started = [2] ∧
    (RunBody engC3 7 true jobC3).1.current_flow_urn = some 2 := by
  decide

/-- C3 (amended): for a job with `allow_overruns = false`, a tracked
handle the engine still reports as running, and lifetime not exceeded (so
neither reap fires), a non-forced evaluation starts nothing and leaves
the record — including the tracked handle — entirely unchanged.  (A
forced evaluation can start a second run, per the counterexample.) -/
theorem c3_no_overrun_start (eng : Engine) (now : Nat) (job : CronJob)
    (h : Nat)
    (hov : job.cron_args.allow_overruns = false)
    (hh : job.current_flow_urn = some h)
    (hrun : eng.flowState h = FlowState.Running)
    (hlife : ∀ l, job.cron_args.lifetime = some l → 0 < l →
      now - job.last_run_time.getD 0 ≤ l) :
    RunBody eng now false job = (job, noEffects) := by
  have hr : IsRunning eng job = true := by simp [IsRunning, hh, hrun]
  have hk : KillOldFlows eng now job = (job, noEffects, false) := by
    unfold KillOldFlows
    rw [hr]
    cases hl : job.cron_args.lifetime with
    | none => simp
    | some l =>
        have := hlife l hl
        simp only [if_true]
        split
        · omega
        · rfl
  have hrf : ReapFinished eng now job = (job, noEffects) := by
    unfold ReapFinished
    rw [hh]
    simp [hrun]
  have hdue : DueToRun now job = false := by
    unfold DueToRun
    simp [hov, hh]
  unfold RunBody
  rw [hk]
  simp only []
  rw [hrf]
  simp [hdue, RunEffects.append, noEffects]

def jobC3w : CronJob :=
  { cron_args :=
      { description := ""
        periodicity := 2
        payloadFlowName := "f"
        payloadFlowArgs := ""
        allow_overruns := false
        lifetime := none
        start_time := some 0 }
    disabled := false
    current_flow_urn := some 4
    last_run_time := some 1
    last_run_status := none }

def engC3w : Engine := ⟨fun _ => FlowState.Running, 5⟩

/-- C3 (witness): the amended theorem at a concrete running job. -/
theorem c3_witness :
    RunBody engC3w 9 false jobC3w = (jobC3w, noEffects) :=
  c3_no_overrun_start engC3w 9 jobC3w 4 rfl rfl rfl
    (by intro l hl hl0; cases hl)

def jobC4 : CronJob :=
  { cron_args :=
      { description := ""
        periodicity := 5
        payloadFlowName := "f"
        payloadFlowArgs := ""
        allow_overruns := false
        lifetime := none
        start_time := some 0 }
    disabled := true
    current_flow_urn := none
    last_run_time := none
    last_run_status := none }

def engC4 : Engine := ⟨fun _ => FlowState.Running, 2⟩

/-- C4 (counterexample): a disabled job is started by `Run` with
`force = true` — `disabled` is consulted only inside `DueToRun()`, which
`force` bypasses, so the claim's "whether the start is triggered by force
being requested or by DueToRun() holding" fails for the forced path. -/
theorem c4_counterexample :
    jobC4.disabled = true ∧
    (RunBody engC4 3 true jobC4).2.started = [2] ∧
    (RunBody engC4 3 true jobC4).1.current_flow_urn = some 2 := by
  decide

/-- C4 (amended): a disabled job is never started by a non-forced
evaluation: with `force = false`, `RunBody` on a disabled record starts
no flow.  (A forced evaluation starts it regardless, per the
counterexample.) -/
theorem c4_disabled_not_started (eng : Engine) (now : Nat) (job : CronJob)
    (hd : job.disabled = true) :
    (RunBody eng now false job).2.started = [] := by
  have hdis :
      (ReapFinished eng now (KillOldFlows eng now job).1).1.disabled = true := by
    rw [(reapFinished_parts eng now _).1, (killOldFlows_parts eng now job).1, hd]
  have hdue :
      DueToRun now (ReapFinished eng now (KillOldFlows eng now job).1).1
        = false := by
    unfold DueToRun
    simp [hdis]
  unfold RunBody
  simp only [hdue]
  simp [RunEffects.append, (reapFinished_parts eng now _).2,
    (killOldFlows_parts eng now job).2]

def jobC4w : CronJob :=
  { cron_args :=
      { description := ""
        periodicity := 5
        payloadFlowName := "f"
        payloadFlowArgs := ""
        allow_overruns := true
        lifetime := some 3
        start_time := some 0 }
    disabled := true
    current_flow_urn := none
    last_run_time := none
    last_run_status := none }

def engC4w : Engine := ⟨fun _ => FlowState.Running, 7⟩

/-- C4 (witness): the amended theorem at a concrete disabled job. -/
theorem c4_witness :
    (RunBody engC4w 11 false jobC4w).2.started = [] :=
  c4_disabled_not_started engC4w 11 jobC4w rfl

def jobC9 : CronJob :=
  { cron_args :=
      { description := ""
        periodicity := 100
        payloadFlowName := "f"
        payloadFlowArgs := ""
        allow_overruns := false
        lifetime := none
        start_time := some 0 }
    disabled := false
    current_flow_urn := some 3
    last_run_time := some 2
    last_run_status := none }

def engC9 : Engine := ⟨fun _ => FlowState.Error, 4⟩

/-- C9 (counterexample): when the engine reports the tracked run as
terminal with `ERROR`, the evaluation records `last_run_status = Error`
but records no run latency — the latency event is emitted only in the
`Ok` branch, so the claim's "records the run latency … in both the Ok and
the Error case" fails. -/
theorem c9_counterexample :
    jobC9.current_flow_urn = some 3 ∧
    engC9.flowState 3 = FlowState.Error ∧
    (RunBody engC9 9 false jobC9).1.last_run_status =
      some CronRunStatus.ERROR ∧
    (RunBody engC9 9 false jobC9).2.latencies = [] := by
  decide

/-- C9 (amended): when a handle is tracked and the engine reports a
terminal state, the evaluation records `last_run_status` as `Ok` or
`Error` according to that state, increments the failure counter exactly
on `Error`, records the run latency (`now - last_run_time`) only in the
`Ok` case, and clears `current_run_handle` (any handle tracked afterwards
is one newly started by this same evaluation). -/
theorem c9_reap_finished (eng : Engine) (now : Nat) (force : Bool)
    (job : CronJob) (h : Nat)
    (hh : job.current_flow_urn = some h)
    (hterm : eng.flowState h ≠ FlowState.Running) :
    (eng.flowState h = FlowState.Error →
      (RunBody eng now force job).1.last_run_status =
        some CronRunStatus.ERROR ∧
      (RunBody eng now force job).2.failures = 1 ∧
      (RunBody eng now force job).2.latencies = []) ∧
    (eng.flowState h ≠ FlowState.Error →
      (RunBody eng now force job).1.last_run_status =
        some CronRunStatus.OK ∧
      (RunBody eng now force job).2.failures = 0 ∧
      (RunBody eng now force job).2.latencies =
        [now - job.last_run_time.getD 0]) ∧
    ((RunBody eng now force job).1.current_flow_urn = none ∨
      (RunBody eng now force job).1.current_flow_urn = some eng.newFlow) := by
  have hnr : IsRunning eng job = false := by simp [IsRunning, hh, hterm]
  have hk : KillOldFlows eng now job = (job, noEffects, false) := by
    unfold KillOldFlows
    simp [hnr]
  by_cases he : eng.flowState h = FlowState.Error
  · have hrf : ReapFinished eng now job =
        ({ job with
            last_run_status := some CronRunStatus.ERROR
            current_flow_urn := none },
         { noEffects with failures := 1 }) := by
      unfold ReapFinished
      simp [hh, hterm, he]
    unfold RunBody
    rw [hk]
    simp only []
    rw [hrf]
    refine ⟨fun _ => ?_, fun hne => absurd he hne, ?_⟩
    · split <;> simp [RunEffects.append, noEffects]
    · split <;> simp
  · have hrf : ReapFinished eng now job =
        ({ job with
            last_run_status := some CronRunStatus.OK
            current_flow_urn := none },
         { noEffects with latencies := [now - job.last_run_time.getD 0] }) := by
      unfold ReapFinished
      simp [hh, hterm, he]
    unfold RunBody
    rw [hk]
    simp only []
    rw [hrf]
    refine ⟨fun habs => absurd habs he, fun _ => ?_, ?_⟩
    · split <;> simp [RunEffects.append, noEffects]
    · split <;> simp

def jobC9w : CronJob :=
  { cron_args :=
      { description := ""
        periodicity := 100
        payloadFlowName := "f"
        payloadFlowArgs := ""
        allow_overruns := false
        lifetime := none
        start_time := some 0 }
    disabled := false
    current_flow_urn := some 1
    last_run_time := some 4
    last_run_status := none }

def engC9w : Engine := ⟨fun _ => FlowState.Terminated, 6⟩

/-- C9 (witness): the amended theorem's `Ok` branch at a concrete job
whose run the engine reports as cleanly terminated. -/
theorem c9_witness :
    (RunBody engC9w 10 false jobC9w).1.last_run_status =
      some CronRunStatus.OK ∧
    (RunBody engC9w 10 false jobC9w).2.failures = 0 ∧
    (RunBody engC9w 10 false jobC9w).2.latencies = [6] :=
  (c9_reap_finished engC9w 10 false jobC9w 1 rfl (by decide)).2.1 (by decide)

/-- Updating one job's record leaves every other id's lookup unchanged. -/
theorem lookupJob_updateJob_ne (store : List (String × CronJob))
    (k : String) (v : CronJob) (n : String) (hkn : k ≠ n) :
    lookupJob (updateJob store k v) n = lookupJob store n := by
  induction store with
  | nil => rfl
  | cons p rest ih =>
      unfold updateJob lookupJob
      by_cases hp : p.1 = k
      · simp [hp, hkn]
        exact ih
      · by_cases hn : p.1 = n
        · simp [hp, hn, Ne.symm hkn]
        · simp [hp, hn]
          exact ih

/-- One `RunOnce` iteration for job `name` leaves every other id's record
unchanged. -/
theorem runOnceStep_lookup_ne
    (ev : String → CronJob → Except CronJob CronJob)
    (canLock : String → Bool) (acc : List (String × CronJob) × Nat)
    (name n : String) (hne : name ≠ n) :
    lookupJob (RunOnceStep ev canLock acc name).1 n = lookupJob acc.1 n := by
  unfold RunOnceStep
  by_cases hcl : canLock name = true
  · simp only [hcl, if_true]
    cases hlk : lookupJob acc.1 name with
    | none => rfl
    | some j =>
        cases hev : ev name j with
        | ok j2 => simp [hev, lookupJob_updateJob_ne acc.1 name j2 n hne]
        | error j2 => simp [hev, lookupJob_updateJob_ne acc.1 name j2 n hne]
  · simp [hcl]

/-- A `RunOnce` pass over names not containing `n` leaves `n`'s record
unchanged. -/
theorem runOncePass_lookup_not_mem
    (ev : String → CronJob → Except CronJob CronJob)
    (canLock : String → Bool) (names : List String)
    (acc : List (String × CronJob) × Nat) (n : String) (hn : n ∉ names) :
    lookupJob (List.foldl (RunOnceStep ev canLock) acc names).1 n =
      lookupJob acc.1 n := by
  induction names generalizing acc with
  | nil => rfl
  | cons a rest ih =>
      simp only [List.foldl_cons]
      have hna : a ≠ n := fun hEq => hn (hEq ▸ List.mem_cons_self a rest)
      rw [ih _ fun hm => hn (List.mem_cons_of_mem _ hm),
        runOnceStep_lookup_ne ev canLock acc a n hna]

/-- C5: inside a `RunOnce` pass, a job whose non-blocking lease
acquisition (with a fixed 600-second lease duration) fails is skipped
silently: the pass is the same as the pass without that name, the job's
record is untouched, and every other job — before and after it — is
still processed; with no `names` argument the pass covers all listed
jobs. -/
theorem c5_lease_contention
    (ev : String → CronJob → Except CronJob CronJob)
    (canLock : String → Bool) (store : List (String × CronJob))
    (ns1 ns2 : List String) (n : String)
    (hlock : canLock n = false) (hmem : n ∉ ns1 ++ ns2) :
    RunOncePass ev canLock store (ns1 ++ n :: ns2) =
      RunOncePass ev canLock store (ns1 ++ ns2) ∧
    lookupJob (RunOncePass ev canLock store (ns1 ++ n :: ns2)).1 n =
      lookupJob store n ∧
    cronRunOnceLeaseTime = 600 ∧
    RunOnce ev canLock store none =
      RunOncePass ev canLock store (ListJobs store) := by
  have hstep : ∀ acc, RunOnceStep ev canLock acc n = acc := by
    intro acc
    unfold RunOnceStep
    simp [hlock]
  have h1 : RunOncePass ev canLock store (ns1 ++ n :: ns2) =
      RunOncePass ev canLock store (ns1 ++ ns2) := by
    unfold RunOncePass
    rw [List.foldl_append, List.foldl_append, List.foldl_cons, hstep]
  refine ⟨h1, ?_, rfl, rfl⟩
  rw [h1]
  exact runOncePass_lookup_not_mem ev canLock (ns1 ++ ns2) (store, 0) n hmem

/-- A job record used by concrete scheduler scenarios. -/
def jobPlain : CronJob :=
  { cron_args :=
      { description := ""
        periodicity := 5
        payloadFlowName := "f"
        payloadFlowArgs := ""
        allow_overruns := false
        lifetime := none
        start_time := some 0 }
    disabled := false
    current_flow_urn := none
    last_run_time := none
    last_run_status := none }

/-- C5 (witness): a two-job store where job `a`'s lease is held
elsewhere. -/
theorem c5_witness :
    RunOncePass (fun _ j => Except.ok j) (fun s => s != "a")
        [("a", jobPlain), ("b", jobPlain)] (["b"] ++ "a" :: []) =
      RunOncePass (fun _ j => Except.ok j) (fun s => s != "a")
        [("a", jobPlain), ("b", jobPlain)] (["b"] ++ []) ∧
    lookupJob (RunOncePass (fun _ j => Except.ok j) (fun s => s != "a")
        [("a", jobPlain), ("b", jobPlain)] (["b"] ++ "a" :: [])).1 "a" =
      lookupJob [("a", jobPlain), ("b", jobPlain)] "a" ∧
    cronRunOnceLeaseTime = 600 ∧
    RunOnce (fun _ j => Except.ok j) (fun s => s != "a")
        [("a", jobPlain), ("b", jobPlain)] none =
      RunOncePass (fun _ j => Except.ok j) (fun s => s != "a")
        [("a", jobPlain), ("b", jobPlain)]
        (ListJobs [("a", jobPlain), ("b", jobPlain)]) :=
  c5_lease_contention (fun _ j => Except.ok j) (fun s => s != "a")
    [("a", jobPlain), ("b", jobPlain)] ["b"] [] "a" (by decide) (by decide)

/-- C7: when a job's lease is acquired but its evaluation raises, the
exception is contained at per-job granularity: the pass continues as a
value (nothing propagates), the `cron_internal_error` counter is
incremented by one, the record is left as committed at the exception, and
the remaining names of the same pass are still folded through the very
same per-job step. -/
theorem c7_eval_error_contained
    (ev : String → CronJob → Except CronJob CronJob)
    (canLock : String → Bool) (store : List (String × CronJob))
    (ns1 ns2 : List String) (n : String) (jn j : CronJob)
    (hlock : canLock n = true)
    (hjob : lookupJob (RunOncePass ev canLock store ns1).1 n = some jn)
    (herr : ev n jn = Except.error j) :
    RunOncePass ev canLock store (ns1 ++ n :: ns2) =
      List.foldl (RunOnceStep ev canLock)
        (updateJob (RunOncePass ev canLock store ns1).1 n j,
         (RunOncePass ev canLock store ns1).2 + 1) ns2 := by
  have hsplit : RunOncePass ev canLock store (ns1 ++ n :: ns2) =
      List.foldl (RunOnceStep ev canLock)
        (RunOnceStep ev canLock (RunOncePass ev canLock store ns1) n) ns2 := by
    unfold RunOncePass
    rw [List.foldl_append, List.foldl_cons]
  rw [hsplit]
  congr 1
  unfold RunOnceStep
  simp [hlock, hjob, herr]

/-- C7 (witness): a pass in which job `x`'s evaluation raises while job
`y` remains to be processed. -/
theorem c7_witness :
    RunOncePass (fun _ j => Except.error j) (fun _ => true)
        [("x", jobPlain), ("y", jobPlain)] ([] ++ "x" :: ["y"]) =
      List.foldl (RunOnceStep (fun _ j => Except.error j) (fun _ => true))
        (updateJob (RunOncePass (fun _ j => Except.error j) (fun _ => true)
            [("x", jobPlain), ("y", jobPlain)] []).1 "x" jobPlain,
         (RunOncePass (fun _ j => Except.error j) (fun _ => true)
            [("x", jobPlain), ("y", jobPlain)] []).2 + 1) ["y"] :=
  c7_eval_error_contained (fun _ j => Except.error j) (fun _ => true)
    [("x", jobPlain), ("y", jobPlain)] [] ["y"] "x" jobPlain jobPlain
    rfl (by decide) rfl

/-- C8: creating a job twice under the same id, the second time differing
only in `frequency` (the stored `periodicity`), preserves the stored
`start_time` from the first creation — a nonzero creation-time default,
per the spec's "start_time (optional, defaults to now)" — while the
stored periodicity is updated to the new value. -/
theorem c8_idempotent_redefinition (a1 : CreateCronJobArgs) (freq2 : Nat)
    (e1 e2 : Bool) (t1 t2 uid1 uid2 : Nat) (ht1 : 0 < t1) :
    (lookupJob (CreateJob [] a1 (some "j") e1 t1 uid1).2 "j").map
        (fun r => r.cron_args.start_time) = some (some t1) ∧
    (lookupJob (CreateJob (CreateJob [] a1 (some "j") e1 t1 uid1).2
        { a1 with frequency := freq2 } (some "j") e2 t2 uid2).2 "j").map
        (fun r => r.cron_args.start_time) = some (some t1) ∧
    (lookupJob (CreateJob (CreateJob [] a1 (some "j") e1 t1 uid1).2
        { a1 with frequency := freq2 } (some "j") e2 t2 uid2).2 "j").map
        (fun r => r.cron_args.periodicity) = some freq2 := by
  have h1 : (CreateJob [] a1 (some "j") e1 t1 uid1).2 =
      [("j", { cron_args := mkCreateCronJobFlowArgs a1 t1
               disabled := !e1
               current_flow_urn := none
               last_run_time := none
               last_run_status := none })] := rfl
  rw [h1]
  unfold CreateJob
  simp only [lookupJob, mkCreateCronJobFlowArgs]
  simp [ht1]
  constructor
  · split <;> rfl
  · split <;> simp_all

def argsC8 : CreateCronJobArgs :=
  { flow_name := "f"
    flow_args := "a"
    frequency := 5
    lifetime := none
    allow_overruns := false
    description := "d" }

/-- C8 (witness): a concrete redefinition at a later time with a new
frequency keeps the first creation's `start_time`. -/
theorem c8_witness :
    (lookupJob (CreateJob [] argsC8 (some "j") true 7 0).2 "j").map
        (fun r => r.cron_args.start_time) = some (some 7) ∧
    (lookupJob (CreateJob (CreateJob [] argsC8 (some "j") true 7 0).2
        { argsC8 with frequency := 9 } (some "j") true 20 1).2 "j").map
        (fun r => r.cron_args.start_time) = some (some 7) ∧
    (lookupJob (CreateJob (CreateJob [] argsC8 (some "j") true 7 0).2
        { argsC8 with frequency := 9 } (some "j") true 20 1).2 "j").map
        (fun r => r.cron_args.periodicity) = some 9 :=
  c8_idempotent_redefinition argsC8 9 true true 7 20 0 1 (by decide)

/-- C10: `DeleteOldRuns` with no cutoff fails (no implicit default); with
a cutoff it keeps exactly the run-history entries at or after the cutoff,
hands exactly the entries strictly before the cutoff to the execution
engine's bookkeeping discard, and returns their number. -/
theorem c10_delete_old_runs (runs : List CronRun) (c : Nat)
    (res : DeleteOldRunsResult)
    (hres : DeleteOldRuns runs (some c) = Except.ok res) :
    DeleteOldRuns runs none = Except.error DeleteOldRunsError.cutoffMissing ∧
    (∀ r, r ∈ res.remaining ↔ r ∈ runs ∧ c ≤ r.timestamp) ∧
    (∀ r, r ∈ res.destroyedFlowStates ↔ r ∈ runs ∧ r.timestamp < c) ∧
    res.count = res.destroyedFlowStates.length := by
  have hres' : res =
      { remaining := runs.filter fun r => ¬r.timestamp < c
        destroyedFlowStates := ListChildrenOlderThan runs c
        count := (ListChildrenOlderThan runs c).length } := by
    unfold DeleteOldRuns at hres
    exact (Except.ok.inj hres).symm
  refine ⟨rfl, fun r => ?_, fun r => ?_, by rw [hres']⟩
  · rw [hres']
    simp [List.mem_filter, Nat.not_lt]
  · rw [hres']
    simp [ListChildrenOlderThan, List.mem_filter]

/-- C10 (witness): pruning two runs at cutoff 3 removes exactly the run
at timestamp 1 and reports the outcome for it. -/
theorem c10_witness :
    DeleteOldRuns [⟨1, 10⟩, ⟨5, 11⟩] none =
      Except.error DeleteOldRunsError.cutoffMissing ∧
    ((⟨1, 10⟩ : CronRun) ∈
        ({ remaining := [⟨5, 11⟩], destroyedFlowStates := [⟨1, 10⟩],
           count := 1 } : DeleteOldRunsResult).destroyedFlowStates ↔
      (⟨1, 10⟩ : CronRun) ∈ [(⟨1, 10⟩ : CronRun), ⟨5, 11⟩] ∧ 1 < 3) ∧
    ({ remaining := [⟨5, 11⟩], destroyedFlowStates := [⟨1, 10⟩],
       count := 1 } : DeleteOldRunsResult).count =
      ({ remaining := [⟨5, 11⟩], destroyedFlowStates := [⟨1, 10⟩],
         count := 1 } : DeleteOldRunsResult).destroyedFlowStates.length :=
  ⟨(c10_delete_old_runs [⟨1, 10⟩, ⟨5, 11⟩] 3
      { remaining := [⟨5, 11⟩], destroyedFlowStates := [⟨1, 10⟩], count := 1 }
      rfl).1,
   (c10_delete_old_runs [⟨1, 10⟩, ⟨5, 11⟩] 3
      { remaining := [⟨5, 11⟩], destroyedFlowStates := [⟨1, 10⟩], count := 1 }
      rfl).2.2.1 ⟨1, 10⟩,
   (c10_delete_old_runs [⟨1, 10⟩, ⟨5, 11⟩] 3
      { remaining := [⟨5, 11⟩], destroyedFlowStates := [⟨1, 10⟩], count := 1 }
      rfl).2.2.2⟩

end GrrCron
